import Mathlib

/-!
Verification of the `cli-timer` terminal countdown timer (Rust sources
`src/app.rs`, `src/handler.rs`, `src/main.rs`) against its natural-language
specification.

Shallow embedding conventions:
* All time values (`chrono::Duration` spans and `DateTime<Local>` instants)
  are modelled as `Int` milliseconds; `Local::now()` becomes an explicit
  `now : Int` argument threaded into each operation that calls it.
  chrono's `num_seconds`/`num_minutes`/`num_hours` truncate toward zero,
  modelled by `Int.tdiv`.
* `App` mirrors the Rust struct field for field, except that the purely
  cosmetic `colour: Color` field (chosen once at random, never read by the
  state machine) is omitted, and `sender: Option<Sender<()>>` is modelled by
  its presence bit `sender : Bool` (the channel itself carries no data).
* The I/O environment of `App::start_sound` (does `File::open` succeed, is an
  audio output device available, can a `Sink` be created, does the decoder
  accept the file) is a record `SoundEnv` of booleans; the background thread
  body is modelled by the `ThreadOutcome` it reaches.
* Side effects on the audio subsystem (attempting to start playback,
  sending on the stop channel) are returned as an explicit `Effect` list.
-/

/-- The span `chrono::Duration::seconds s` denotes, in milliseconds
(`app.rs` line 46, line 223). This is the constructed value only when `s` is
within chrono's bounds; the constructor's out-of-bounds panic is modelled by
`Duration.try_seconds` below. -/
def Duration.seconds (s : Int) : Int :=
  s * 1000

/-- chrono restricts a `Duration` to spans whose milliseconds fit in `i64`,
so `Duration::seconds` accepts `|s| ≤ i64::MAX / 1000 = 9223372036854775`
and panics outside that range: `some` of the span when in bounds, `none`
(the panic) otherwise. -/
def Duration.try_seconds (s : Int) : Option Int :=
  if -9223372036854775 ≤ s ∧ s ≤ 9223372036854775 then some (Duration.seconds s)
  else none

/-- The event loop's tick period: `Handler::new(250)` in `main.rs` line 17,
milliseconds. -/
def tick_period_ms : Int :=
  250

/-- Rust `enum State` from `app.rs` lines 49-55. `Restart` is the
confirm-restart phase the spec calls `ConfirmRestart`. -/
inductive State where
  | Running
  | Paused
  | Triggered
  | Restart
deriving DecidableEq, Repr

/-- Rust `struct App` from `app.rs` lines 57-68 (see the header for the
omitted `colour` field and the `sender` presence bit). -/
structure App where
  running : Bool
  state : State
  pre_pause_state : Option State
  duration : Int
  time_left : Int
  end_time : Int
  message : Option String
  sound_file : String
  sender : Bool
deriving DecidableEq, Repr

/-- `App::new` (`app.rs` lines 119-130): fields from the parsed arguments,
the rest from `App::default` (running=true, state=Running,
pre_pause_state=None, sender=None); `end_time = Local::now() + args.time`. -/
def App.new (time : Int) (sound : String) (label : Option String) (now : Int) : App :=
  { running := true
    state := State.Running
    pre_pause_state := none
    duration := time
    time_left := time
    end_time := now + time
    message := label
    sound_file := sound
    sender := false }

/-- The I/O environment `App::start_sound` and its spawned thread run in:
whether `File::open` succeeds, whether `OutputStream::try_default` finds a
device, whether `Sink::try_new` succeeds, whether `rodio::Decoder::new`
accepts the file. -/
structure SoundEnv where
  fileOpens : Bool
  deviceAvailable : Bool
  sinkCreated : Bool
  fileDecodes : Bool
deriving DecidableEq, Repr

/-- How far the background thread of `App::start_sound` (`app.rs` lines
244-288) gets: not spawned at all (file open failed), early-returned after
logging (no output stream / no sink / no decoder), or playing the looping
faded-in source. -/
inductive ThreadOutcome where
  | notSpawned
  | noOutputStream
  | noSink
  | noDecoder
  | playing
deriving DecidableEq, Repr

/-- Observable audio-side effects of one operation: an attempt to start the
alarm (with whether the file opened), or a send on the stop channel. -/
inductive Effect where
  | StartSound (fileOpened : Bool)
  | StopSignal
deriving DecidableEq, Repr

deriving instance DecidableEq for Except

/-- Result of `App::start_sound`: the mutated `App`, the `Result<()>` return
value (error carrier elided to `Unit`), and the outcome the spawned thread
reaches. -/
structure StartSoundResult where
  app : App
  result : Except Unit Unit
  thread : ThreadOutcome
deriving DecidableEq, Repr

/-- `App::start_sound` (`app.rs` lines 237-291): `File::open(...)?` makes the
function return the error as soon as the file fails to open; otherwise a
channel is created, `self.sender = Some(tx)` is stored, the thread is
spawned (its own failures are printed with `eprintln!` and end the thread),
and `Ok(())` is returned. -/
def start_sound (env : SoundEnv) (app : App) : StartSoundResult :=
  if env.fileOpens then
    { app := { app with sender := true }
      result := Except.ok ()
      thread :=
        if ¬env.deviceAvailable then ThreadOutcome.noOutputStream
        else if ¬env.sinkCreated then ThreadOutcome.noSink
        else if ¬env.fileDecodes then ThreadOutcome.noDecoder
        else ThreadOutcome.playing }
  else
    { app := app, result := Except.error (), thread := ThreadOutcome.notSpawned }

/-- `App::tick` (`app.rs` lines 133-153). Note that the `Running` and
`Restart` states share one match arm: both recompute
`time_left = end_time - now` and, when it is `<= 0`, call `start_sound`
(logging any error) and set the state to `Triggered`. An `Effect.StartSound`
is emitted exactly when `start_sound` is called. -/
def tick (now : Int) (env : SoundEnv) (app : App) : App × List Effect :=
  match app.state with
  | State.Paused =>
      ({ app with end_time := now + app.time_left }, [])
  | State.Running | State.Restart =>
      let tl := app.end_time - now
      if tl ≤ 0 then
        let r := start_sound env { app with time_left := tl }
        ({ r.app with state := State.Triggered }, [Effect.StartSound env.fileOpens])
      else
        ({ app with time_left := tl }, [])
  | State.Triggered =>
      ({ app with time_left := app.end_time - now }, [])

/-- `App::restart` (`app.rs` lines 221-235): state=Running, clear
`pre_pause_state`, `time_left = duration`,
`end_time = Local::now() + duration + Duration::seconds(1)`; if a sender is
stored, send `()` on it (result ignored); clear the sender. -/
def restart (now : Int) (app : App) : App × List Effect :=
  ({ app with
      state := State.Running
      pre_pause_state := none
      time_left := app.duration
      end_time := now + app.duration + Duration.seconds 1
      sender := false },
   if app.sender then [Effect.StopSignal] else [])

/-- `crossterm::event::KeyCode` restricted to what `handle_key_events`
distinguishes: `Esc`, `Char(c)`, anything else. -/
inductive KeyCode where
  | Esc
  | Char (c : Char)
  | OtherCode
deriving DecidableEq, Repr

/-- A key event: its code plus whether `modifiers == KeyModifiers::CONTROL`
(the only modifier test the handler performs). -/
structure KeyEvent where
  code : KeyCode
  ctrl : Bool
deriving DecidableEq, Repr

/-- The `Esc`/`'q'` arm of `handle_key_events` (`handler.rs` lines 7-14):
in `Restart` go back to `Running` (cancel the confirmation), in every other
state request exit via `running = false`. -/
def esc_or_q (app : App) : App :=
  match app.state with
  | State.Restart => { app with state := State.Running }
  | _ => { app with running := false }

/-- `handle_key_events` (`handler.rs` lines 4-47). The Rust function returns
`Ok(())` unconditionally; the model returns the mutated `App` together with
the audio effects of any `App::restart` it performs. `now` stands for the
`Local::now()` read inside `App::restart`. -/
def handle_key_events (now : Int) (key : KeyEvent) (app : App) : App × List Effect :=
  match key.code with
  | KeyCode.Esc => (esc_or_q app, [])
  | KeyCode.Char c =>
      if c = 'q' then (esc_or_q app, [])
      else if c = 'c' ∨ c = 'C' then
        (if key.ctrl then { app with running := false } else app, [])
      else if c = ' ' then
        match app.state with
        | State.Running =>
            ({ app with pre_pause_state := some app.state, state := State.Paused }, [])
        | State.Paused =>
            ({ app with state := app.pre_pause_state.getD State.Running
                        pre_pause_state := none }, [])
        | State.Triggered => restart now app
        | State.Restart => (app, [])
      else if c = 'r' ∨ c = 'R' then
        match app.state with
        | State.Running => ({ app with state := State.Restart }, [])
        | State.Restart | State.Triggered => restart now app
        | State.Paused => (app, [])
      else (app, [])
  | KeyCode.OtherCode => (app, [])

/-- The events the main loop dispatches (`main.rs` lines 24-28): a tick (with
the wall clock and sound environment it observes), a key event (with the wall
clock a restart would observe), or a mouse/resize event, which is ignored. -/
inductive Event where
  | Tick (now : Int) (env : SoundEnv)
  | Key (now : Int) (k : KeyEvent)
  | MouseOrResize
deriving Repr

/-- One iteration of the main loop's dispatch (`main.rs` lines 24-28). -/
def step (app : App) (e : Event) : App × List Effect :=
  match e with
  | Event.Tick now env => tick now env app
  | Event.Key now k => handle_key_events now k app
  | Event.MouseOrResize => (app, [])

/-- Run the main loop over a list of events, keeping only the state. -/
def run (app : App) (es : List Event) : App :=
  es.foldl (fun a e => (step a e).1) app

/-- Run a list of ticks, accumulating the emitted effects in order. -/
def ticksRun (app : App) : List (Int × SoundEnv) → App × List Effect
  | [] => (app, [])
  | p :: rest =>
      let r1 := tick p.1 p.2 app
      let r2 := ticksRun r1.1 rest
      (r2.1, r1.2 ++ r2.2)

/-- Is an effect an attempt to start the alarm? -/
def isStartEffect : Effect → Bool
  | Effect.StartSound _ => true
  | Effect.StopSignal => false

/-- Number of alarm-start attempts in an effect list. -/
def startAttempts (es : List Effect) : Nat :=
  es.countP isStartEffect

/-- The space-bar key event. -/
def spaceKey : KeyEvent :=
  { code := KeyCode.Char ' ', ctrl := false }

/-- The 'r' key event. -/
def rKey : KeyEvent :=
  { code := KeyCode.Char 'r', ctrl := false }

/-- The model of Rust `str::split(':')` on the character list of the input:
every maximal run between colons becomes one field, so `""` gives `[""]`,
`"1::2"` gives `["1", "", "2"]`. -/
def split_colon : List Char → List (List Char)
  | [] => [[]]
  | c :: rest =>
      let r := split_colon rest
      if c = ':' then [] :: r
      else
        match r with
        | [] => [[c]]
        | g :: gs => (c :: g) :: gs

/-- Value of an ASCII digit. -/
def digitVal (c : Char) : Option Nat :=
  if '0' ≤ c ∧ c ≤ '9' then some (c.toNat - '0'.toNat) else none

/-- Accumulate a digit list into a natural number, failing on a non-digit. -/
def digitsToNat (acc : Nat) : List Char → Option Nat
  | [] => some acc
  | c :: rest =>
      match digitVal c with
      | some d => digitsToNat (acc * 10 + d) rest
      | none => none

/-- Model of Rust `str::parse::<i64>()`: an optional `+`/`-` sign, then at
least one ASCII digit, and the value must fit in `i64`. -/
def parse_i64 (s : List Char) : Option Int :=
  let signed : Bool × List Char :=
    match s with
    | '+' :: rest => (false, rest)
    | '-' :: rest => (true, rest)
    | l => (false, l)
  match signed with
  | (neg, ds) =>
    if ds.isEmpty then none
    else
      match digitsToNat 0 ds with
      | none => none
      | some n =>
          let v : Int := if neg then -(n : Int) else (n : Int)
          if -(2 ^ 63) ≤ v ∧ v ≤ 2 ^ 63 - 1 then some v else none

/-- Two's-complement wrap into the `i64` range: the value a release-profile
Rust build stores after an overflowing `i64` operation. -/
def i64_wrap (x : Int) : Int :=
  (x + 2 ^ 63) % 2 ^ 64 - 2 ^ 63

/-- `i64` addition as compiled under the release profile: wrapping. (Under
the debug profile an overflowing `+=` panics instead; on overflow neither
profile produces the mathematical sum.) -/
def i64_add (a b : Int) : Int :=
  i64_wrap (a + b)

/-- Sum the parsed fields left to right, mirroring the `for` loop of
`parse_duration` with its `?` on each `parse::<i64>()`; the accumulator
`time_in_seconds` is an `i64`, so each `+=` wraps (see `i64_add`). -/
def sumFields (acc : Int) : List (List Char) → Except Unit Int
  | [] => Except.ok acc
  | f :: rest =>
      match parse_i64 f with
      | some v => sumFields (i64_add acc v) rest
      | none => Except.error ()

/-- How a call of `parse_duration` ends: `Ok(Duration)` (the span in
milliseconds), `Err(ParseIntError)` returned through `?` (error carrier
elided), or the `chrono::Duration::seconds` out-of-bounds panic, which never
returns. -/
inductive ParseResult where
  | ok (ms : Int)
  | parseError
  | panic
deriving DecidableEq, Repr

/-- `parse_duration` (`app.rs` lines 38-47): split the argument on `':'`,
parse every field as `i64`, sum the fields (wrapping `i64` `+=`), return
`Duration::seconds(sum)`; the first field that fails to parse aborts with
the parse error, and a sum outside chrono's `Duration` bounds makes the
`Duration::seconds` call panic. -/
def parse_duration (arg : String) : ParseResult :=
  match sumFields 0 (split_colon arg.data) with
  | Except.error _ => ParseResult.parseError
  | Except.ok total =>
      match Duration.try_seconds total with
      | some d => ParseResult.ok d
      | none => ParseResult.panic

/-- Zero-left-pad to two digits: Rust's `{:0>2}` format for a nonnegative
integer. -/
def pad2 (n : Nat) : String :=
  if n < 10 then "0" ++ toString n else toString n

/-- The `time_prefix` local of `App::render` (`app.rs` lines 178-182): `"-"`
when the state is `Triggered`, otherwise a single space. -/
def time_sign (app : App) : String :=
  if app.state = State.Triggered then "-" else " "

/-- Hours component rendered by `App::render` (`app.rs` line 159):
`time_left.num_hours().abs()` (no modulus). -/
def renderHours (app : App) : Nat :=
  (Int.tdiv app.time_left 3600000).natAbs

/-- Minutes component (`app.rs` line 158): `time_left.num_minutes().abs() % 60`. -/
def renderMinutes (app : App) : Nat :=
  (Int.tdiv app.time_left 60000).natAbs % 60

/-- Seconds component (`app.rs` line 157): `time_left.num_seconds().abs() % 60`. -/
def renderSeconds (app : App) : Nat :=
  (Int.tdiv app.time_left 1000).natAbs % 60

/-- The `time_string` local of `App::render` (`app.rs` line 183):
`format!("{time_prefix}{hours:0>2}:{minutes:0>2}:{seconds:0>2}")`. -/
def time_string (app : App) : String :=
  time_sign app ++ pad2 (renderHours app) ++ ":" ++ pad2 (renderMinutes app)
    ++ ":" ++ pad2 (renderSeconds app)

/-- The strengthened reachable-state invariant: `pre_pause_state` is
`some Running` exactly in the `Paused` state and `none` otherwise. -/
def AppInv (app : App) : Prop :=
  app.pre_pause_state = if app.state = State.Paused then some State.Running else none

/-- A concrete 5-second running app used by witnesses and counterexamples. -/
def sampleApp : App :=
  { running := true
    state := State.Running
    pre_pause_state := none
    duration := 5000
    time_left := 5000
    end_time := 5000
    message := none
    sound_file := "alarm.mp3"
    sender := false }

/-- `sampleApp` in the confirm-restart state, its deadline already passed. -/
def confirmApp : App :=
  { sampleApp with state := State.Restart, end_time := 1000 }

/-- A sound environment in which everything works. -/
def sampleEnv : SoundEnv :=
  { fileOpens := true, deviceAvailable := true, sinkCreated := true, fileDecodes := true }

/-- A sound environment whose file opens but does not decode. -/
def badDecodeEnv : SoundEnv :=
  { fileOpens := true, deviceAvailable := true, sinkCreated := true, fileDecodes := false }

/-- A sound environment whose file opens but with no audio output device. -/
def noDeviceEnv : SoundEnv :=
  { fileOpens := true, deviceAvailable := false, sinkCreated := true, fileDecodes := true }

/-- Parse every field, or fail if any field fails: the specification-side
description of "all colon-separated fields parse as integers". -/
def parseFields : List (List Char) → Option (List Int)
  | [] => some []
  | f :: rest =>
      match parse_i64 f, parseFields rest with
      | some v, some vs => some (v :: vs)
      | _, _ => none

/-- Do the left-to-right running sums starting from `acc` stay inside the
`i64` range? When they do, the wrapping release-profile sum equals the
mathematical sum and a debug build would not panic either. -/
def sumFitsI64 (acc : Int) : List Int → Bool
  | [] => true
  | v :: rest =>
      decide (-(2 ^ 63) ≤ acc + v ∧ acc + v ≤ 2 ^ 63 - 1) && sumFitsI64 (acc + v) rest

/-- `sampleApp` five seconds into overtime after triggering. -/
def trigApp : App :=
  { sampleApp with state := State.Triggered, time_left := Duration.seconds (-5) }

/-- A single space key press at time 0, as an event list. -/
def witnessEvents : List Event :=
  [Event.Key 0 spaceKey]

/-! ## Invariant machinery -/

lemma appInv_new (time : Int) (sound : String) (label : Option String) (now : Int) :
    AppInv (App.new time sound label now) := by
  simp [AppInv, App.new]

lemma appInv_restart (now : Int) (app : App) : AppInv (restart now app).1 := by
  simp [AppInv, restart]

lemma appInv_esc_or_q (app : App) (h : AppInv app) : AppInv (esc_or_q app) := by
  unfold AppInv at h ⊢
  cases hs : app.state <;> simp [esc_or_q, hs] <;> simp [hs] at h <;> exact h

lemma appInv_tick (now : Int) (env : SoundEnv) (app : App) (h : AppInv app) :
    AppInv (tick now env app).1 := by
  unfold AppInv at h ⊢
  cases hs : app.state <;> simp [tick, hs] <;> simp [hs] at h <;>
    first
    | (split <;> cases henv : env.fileOpens <;> simp [start_sound, henv, hs, h])
    | simp [hs, h]

lemma appInv_key (now : Int) (key : KeyEvent) (app : App) (h : AppInv app) :
    AppInv (handle_key_events now key app).1 := by
  rcases key with ⟨code, ctrl⟩
  cases code with
  | Esc => exact appInv_esc_or_q app h
  | OtherCode => exact h
  | Char c =>
      by_cases hq : c = 'q'
      · simpa [handle_key_events, hq] using appInv_esc_or_q app h
      · by_cases hc : c = 'c' ∨ c = 'C'
        · unfold AppInv at h ⊢
          cases ctrl <;> simp [handle_key_events, hq, hc] <;> exact h
        · by_cases hsp : c = ' '
          · unfold AppInv at h ⊢
            simp only [handle_key_events, hq, hc, hsp, if_true, if_false]
            cases hs : app.state <;> simp [hs] at h ⊢ <;> simp [h, hs, restart]
          · by_cases hr : c = 'r' ∨ c = 'R'
            · unfold AppInv at h ⊢
              simp only [handle_key_events, hq, hc, hsp, hr, if_true, if_false]
              cases hs : app.state <;> simp [hs] at h ⊢ <;> simp [h, hs, restart]
            · simpa [handle_key_events, hq, hc, hsp, hr] using h

lemma appInv_step (app : App) (e : Event) (h : AppInv app) : AppInv (step app e).1 := by
  cases e with
  | Tick now env => exact appInv_tick now env app h
  | Key now k => exact appInv_key now k app h
  | MouseOrResize => exact h

lemma appInv_run (es : List Event) : ∀ app : App, AppInv app → AppInv (run app es) := by
  induction es with
  | nil => intro app h; simpa [run] using h
  | cons e rest ih =>
      intro app h
      have : run app (e :: rest) = run (step app e).1 rest := by simp [run]
      rw [this]
      exact ih (step app e).1 (appInv_step app e h)

lemma appInv_iff_paused (app : App) (h : AppInv app) :
    app.pre_pause_state.isSome = true ↔ app.state = State.Paused := by
  unfold AppInv at h
  by_cases hs : app.state = State.Paused <;> simp [hs] at h <;> simp [h, hs]

lemma appInv_some_running (app : App) (h : AppInv app) (p : State)
    (hp : app.pre_pause_state = some p) : p = State.Running := by
  unfold AppInv at h
  by_cases hs : app.state = State.Paused <;> simp [hs] at h <;> rw [h] at hp <;>
    simp at hp
  exact hp.symm

/-! ## Tick-trace lemmas -/

lemma tick_paused (now : Int) (env : SoundEnv) (app : App) (h : app.state = State.Paused) :
    tick now env app = ({ app with end_time := now + app.time_left }, []) := by
  simp [tick, h]

lemma tick_triggered (now : Int) (env : SoundEnv) (app : App) (h : app.state = State.Triggered) :
    tick now env app = ({ app with time_left := app.end_time - now }, []) := by
  simp [tick, h]

lemma ticksRun_paused (ts : List (Int × SoundEnv)) :
    ∀ app : App, app.state = State.Paused →
      (ticksRun app ts).1.state = State.Paused
    ∧ (ticksRun app ts).1.time_left = app.time_left
    ∧ (ticksRun app ts).1.pre_pause_state = app.pre_pause_state := by
  induction ts with
  | nil => intro app h; simp [ticksRun, h]
  | cons p rest ih =>
      intro app h
      have hstep := tick_paused p.1 p.2 app h
      have ih1 := ih { app with end_time := p.1 + app.time_left } h
      simpa [ticksRun, hstep] using ih1

lemma ticksRun_triggered (ts : List (Int × SoundEnv)) :
    ∀ app : App, app.state = State.Triggered →
      (ticksRun app ts).1.state = State.Triggered ∧ (ticksRun app ts).2 = [] := by
  induction ts with
  | nil => intro app h; simp [ticksRun, h]
  | cons p rest ih =>
      intro app h
      have hstep := tick_triggered p.1 p.2 app h
      have ih1 := ih { app with time_left := app.end_time - p.1 } h
      simpa [ticksRun, hstep] using ih1

lemma tick_running_expired (now : Int) (env : SoundEnv) (app : App)
    (hs : app.state = State.Running ∨ app.state = State.Restart)
    (hx : app.end_time - now ≤ 0) :
    (tick now env app).1.state = State.Triggered
  ∧ (tick now env app).1.time_left = app.end_time - now
  ∧ (tick now env app).2 = [Effect.StartSound env.fileOpens] := by
  rcases hs with hs | hs <;>
    cases henv : env.fileOpens <;> simp [tick, hs, hx, start_sound, henv]

lemma tick_running_live (now : Int) (env : SoundEnv) (app : App)
    (hs : app.state = State.Running) (hx : 0 < app.end_time - now) :
    tick now env app = ({ app with time_left := app.end_time - now }, []) := by
  have : ¬ (app.end_time - now ≤ 0) := by omega
  simp [tick, hs, this]

lemma ticksRun_running_count (ts : List (Int × SoundEnv)) :
    ∀ app : App, app.state = State.Running →
      startAttempts (ticksRun app ts).2
        = if ts.any (fun p => decide (app.end_time ≤ p.1)) then 1 else 0 := by
  induction ts with
  | nil => intro app h; simp [ticksRun, startAttempts]
  | cons p rest ih =>
      intro app h
      by_cases hx : app.end_time - p.1 ≤ 0
      · obtain ⟨h1, _h2, h3⟩ := tick_running_expired p.1 p.2 app (Or.inl h) hx
        obtain ⟨_t1, t2⟩ := ticksRun_triggered rest (tick p.1 p.2 app).1 h1
        have hcond : app.end_time ≤ p.1 := by omega
        simp [ticksRun, h3, t2, startAttempts, isStartEffect, hcond]
      · have hlt : 0 < app.end_time - p.1 := by omega
        have hstep := tick_running_live p.1 p.2 app h hlt
        have ih1 := ih { app with time_left := app.end_time - p.1 } h
        have hdec : decide (app.end_time ≤ p.1) = false := by
          simp
          omega
        simp only [ticksRun, hstep, List.any_cons, hdec, Bool.false_or, List.nil_append]
        exact ih1

/-! ## Parsing lemmas -/

lemma i64_wrap_eq_self (x : Int) (h1 : -(2 ^ 63) ≤ x) (h2 : x ≤ 2 ^ 63 - 1) :
    i64_wrap x = x := by
  unfold i64_wrap
  rw [Int.emod_eq_of_lt (by omega) (by omega)]
  omega

lemma sumFields_ok (flds : List (List Char)) :
    ∀ (acc : Int) (vs : List Int), parseFields flds = some vs →
      sumFitsI64 acc vs = true → sumFields acc flds = Except.ok (acc + vs.sum) := by
  induction flds with
  | nil =>
      intro acc vs hvs _hfit
      simp only [parseFields, Option.some.injEq] at hvs
      subst hvs
      simp [sumFields]
  | cons f rest ih =>
      intro acc vs hvs hfit
      cases hf : parse_i64 f with
      | none => simp [parseFields, hf] at hvs
      | some v =>
          cases hrest : parseFields rest with
          | none => simp [parseFields, hf, hrest] at hvs
          | some ws =>
              simp only [parseFields, hf, hrest, Option.some.injEq] at hvs
              subst hvs
              simp only [sumFitsI64, Bool.and_eq_true, decide_eq_true_eq] at hfit
              obtain ⟨⟨hlo, hhi⟩, hfit2⟩ := hfit
              have hwrap : i64_add acc v = acc + v := by
                unfold i64_add
                exact i64_wrap_eq_self (acc + v) hlo hhi
              have hstep : sumFields acc (f :: rest) = sumFields (i64_add acc v) rest := by
                simp [sumFields, hf]
              rw [hstep, hwrap, ih (acc + v) ws hrest hfit2, List.sum_cons]
              congr 1
              ring

lemma sumFields_err (flds : List (List Char)) :
    ∀ acc : Int, parseFields flds = none → sumFields acc flds = Except.error () := by
  induction flds with
  | nil =>
      intro acc h
      simp [parseFields] at h
  | cons f rest ih =>
      intro acc h
      cases hf : parse_i64 f with
      | none => simp [sumFields, hf]
      | some v =>
          cases hrest : parseFields rest with
          | none => simp [sumFields, hf, ih (i64_add acc v) hrest]
          | some ws => simp [parseFields, hf, hrest] at h

/-! ## Claims -/

/-- C1 counterexample: `App::restart` adds `Duration::seconds(1)` = 1000 ms
to `now + duration`, not one 250 ms tick-period as the claim states, so at
`now = 0` with `sampleApp` (duration 5000 ms) the new `end_time` is 6000 ms,
not 5250 ms. -/
theorem C1_counterexample :
    (restart 0 sampleApp).1.end_time ≠ 0 + sampleApp.duration + tick_period_ms := by
  decide

/-- C1 (amended): the Restart action (reachable via 'r' in ConfirmRestart,
'r' in Triggered, or Space in Triggered) sets phase to Running, clears
`pre_pause_state`, sets `time_left` to the configured duration, signals any
active Alarm Player to stop and clears the stop handle, and sets
`end_time = now + duration + 1 second` (1000 ms: four tick-periods of the
250 ms event-loop cadence, not one tick-period). -/
theorem C1_restart_action (app : App) (now : Int) :
    (restart now app).1.state = State.Running
  ∧ (restart now app).1.pre_pause_state = none
  ∧ (restart now app).1.time_left = app.duration
  ∧ (restart now app).1.end_time = now + app.duration + Duration.seconds 1
  ∧ (restart now app).1.sender = false
  ∧ (restart now app).2 = (if app.sender then [Effect.StopSignal] else [])
  ∧ (app.state = State.Restart → handle_key_events now rKey app = restart now app)
  ∧ (app.state = State.Triggered → handle_key_events now rKey app = restart now app)
  ∧ (app.state = State.Triggered → handle_key_events now spaceKey app = restart now app) := by
  refine ⟨rfl, rfl, rfl, rfl, rfl, rfl, ?_, ?_, ?_⟩ <;>
    intro h <;> simp [handle_key_events, rKey, spaceKey, h]

/-- C2 counterexample: in the ConfirmRestart phase (`State::Restart`) a Tick
is not a no-op: with `confirmApp` (deadline 1000 ms already passed) a tick at
2000 ms changes `time_left` (5000 to -1000), changes the phase to
`Triggered`, and attempts an Alarm Player start. -/
theorem C2_counterexample :
    confirmApp.state = State.Restart
  ∧ (tick 2000 sampleEnv confirmApp).1.time_left ≠ confirmApp.time_left
  ∧ (tick 2000 sampleEnv confirmApp).1.state = State.Triggered
  ∧ (tick 2000 sampleEnv confirmApp).2 = [Effect.StartSound true] := by
  decide

/-- C2 (amended): a Tick in ConfirmRestart behaves exactly like a Tick in
Running (the two states share one match arm in `App::tick`): it recomputes
`time_left = end_time - now`; if the result is ≤ 0 it attempts an Alarm
Player start and moves the phase to Triggered, otherwise the phase stays
ConfirmRestart. Time is not frozen while confirming. -/
theorem C2_tick_confirm (app : App) (now : Int) (env : SoundEnv)
    (h : app.state = State.Restart) :
    (tick now env app).1.time_left = app.end_time - now
  ∧ (app.end_time - now ≤ 0 →
       (tick now env app).1.state = State.Triggered
     ∧ (tick now env app).2 = [Effect.StartSound env.fileOpens])
  ∧ (0 < app.end_time - now →
       (tick now env app).1.state = State.Restart ∧ (tick now env app).2 = []) := by
  refine ⟨?_, ?_, ?_⟩
  · by_cases hx : app.end_time - now ≤ 0
    · exact (tick_running_expired now env app (Or.inr h) hx).2.1
    · simp [tick, h, hx]
  · intro hx
    exact ⟨(tick_running_expired now env app (Or.inr h) hx).1,
           (tick_running_expired now env app (Or.inr h) hx).2.2⟩
  · intro hx
    have hx2 : ¬ (app.end_time - now ≤ 0) := by omega
    simp [tick, h, hx2]

/-- C2 witness: `C2_tick_confirm` applied to the concrete `confirmApp` at
time 2000 ms. -/
theorem C2_witness :
    (tick 2000 sampleEnv confirmApp).1.time_left = confirmApp.end_time - 2000
  ∧ (tick 2000 sampleEnv confirmApp).1.state = State.Triggered :=
  ⟨(C2_tick_confirm confirmApp 2000 sampleEnv (by decide)).1,
   ((C2_tick_confirm confirmApp 2000 sampleEnv (by decide)).2.1 (by decide)).1⟩

/-- C3 counterexample: with a file that opens but cannot be decoded
(`badDecodeEnv`), and with a file that opens but no audio output device
(`noDeviceEnv`), `App::start_sound` still returns `Ok`, contradicting the
claim that an undecodable file or a missing audio device makes the start
fail. -/
theorem C3_counterexample :
    badDecodeEnv.fileDecodes = false
  ∧ (start_sound badDecodeEnv sampleApp).result = Except.ok ()
  ∧ noDeviceEnv.deviceAvailable = false
  ∧ (start_sound noDeviceEnv sampleApp).result = Except.ok () := by
  decide

/-- C3 (amended): `App::start_sound` returns an error if and only if the
sound file cannot be opened; on success it stores the stop handle and
returns `Ok`. A missing output device or an undecodable file does not make
the start fail: those conditions are detected on the spawned background
thread, which logs them and exits. -/
theorem C3_start_sound (env : SoundEnv) (app : App) :
    ((start_sound env app).result = Except.error () ↔ env.fileOpens = false)
  ∧ (env.fileOpens = true →
       (start_sound env app).app.sender = true
     ∧ (start_sound env app).result = Except.ok ())
  ∧ (env.fileOpens = true → env.deviceAvailable = false →
       (start_sound env app).thread = ThreadOutcome.noOutputStream)
  ∧ (env.fileOpens = true → env.deviceAvailable = true → env.sinkCreated = true →
       env.fileDecodes = false →
       (start_sound env app).thread = ThreadOutcome.noDecoder) := by
  obtain ⟨fo, da, sc, fd⟩ := env
  cases fo <;> cases da <;> cases sc <;> cases fd <;> simp [start_sound]

/-- C4: from the initial state (`App::new`: phase Running, no
`pre_pause_state`), every sequence of tick, key and mouse/resize events
preserves the invariant that `pre_pause_state` is set if and only if the
phase is Paused. -/
theorem C4_pre_pause_iff_paused (time : Int) (sound : String) (label : Option String)
    (now0 : Int) (es : List Event) :
    (run (App.new time sound label now0) es).pre_pause_state.isSome = true
      ↔ (run (App.new time sound label now0) es).state = State.Paused :=
  appInv_iff_paused _ (appInv_run es _ (appInv_new time sound label now0))

/-- C5 counterexample: the universal "result is the sum of the fields"
fails on overflow. On `"9223372036854775807:9223372036854775807:2"` every
field parses as an `i64` and the mathematical sum is 2^64 seconds, but the
wrapping `i64` accumulator makes `parse_duration` return `Ok` of a
0-second duration instead (a debug build would panic at the `+=`). On
`"10000000000000000"` the single field parses and there is no overflow, but
the sum exceeds chrono's `Duration` bounds, so `Duration::seconds` panics
instead of returning `Ok` of a 10^16-second duration. -/
theorem C5_counterexample :
    parseFields (split_colon ("9223372036854775807:9223372036854775807:2").data)
      = some [9223372036854775807, 9223372036854775807, 2]
  ∧ List.sum [(9223372036854775807 : Int), 9223372036854775807, 2] = 18446744073709551616
  ∧ parse_duration "9223372036854775807:9223372036854775807:2" = ParseResult.ok 0
  ∧ ParseResult.ok (0 : Int) ≠ ParseResult.ok (Duration.seconds 18446744073709551616)
  ∧ parseFields (split_colon ("10000000000000000").data) = some [10000000000000000]
  ∧ parse_duration "10000000000000000" = ParseResult.panic
  ∧ ParseResult.panic ≠ ParseResult.ok (Duration.seconds 10000000000000000) := by
  decide

/-- C5 (amended): `parse_duration` splits on ':' and sums all fields as
`i64` seconds regardless of position: if every colon-separated field parses
as an `i64`, the left-to-right running sums stay within `i64`, and the
total is within chrono's `Duration::seconds` bounds, the result is `Ok` of
`Duration::seconds` of the sum of the fields (so `"1:2:3"` is 6 seconds,
not 1h2m3s); if any field fails to parse as an integer the whole parse
fails with the parse error. Outside those bounds the sum wraps (release
profile; a debug build panics) or the `Duration::seconds` call panics. -/
theorem C5_parse_duration (arg : String) :
    (∀ vs : List Int, parseFields (split_colon arg.data) = some vs →
       sumFitsI64 0 vs = true →
       -9223372036854775 ≤ vs.sum → vs.sum ≤ 9223372036854775 →
       parse_duration arg = ParseResult.ok (Duration.seconds vs.sum))
  ∧ (parseFields (split_colon arg.data) = none → parse_duration arg = ParseResult.parseError)
  ∧ parse_duration "1:2:3" = ParseResult.ok (Duration.seconds 6) := by
  refine ⟨?_, ?_, by decide⟩
  · intro vs hvs hfit hlo hhi
    have hsum := sumFields_ok (split_colon arg.data) 0 vs hvs hfit
    simp only [zero_add] at hsum
    simp [parse_duration, hsum, Duration.try_seconds, hlo, hhi]
  · intro hnone
    simp [parse_duration, sumFields_err (split_colon arg.data) 0 hnone]

/-- C5 witness: on `"1:2:3"` the fields parse as [1, 2, 3], no running sum
overflows, the total 6 is within the chrono bounds, and the parsed duration
is 6 seconds (their sum), per `C5_parse_duration`. -/
theorem C5_witness : parse_duration "1:2:3" = ParseResult.ok (Duration.seconds 6) :=
  (C5_parse_duration "1:2:3").1 [1, 2, 3] (by decide) (by decide) (by decide) (by decide)

/-- C6: a Tick in Running recomputes `time_left = end_time - now`; when the
result is ≤ 0 it attempts an Alarm Player start and moves to Triggered —
also when the start fails (the `StartSound` effect is emitted for every
value of `env.fileOpens`); Ticks in Triggered only recompute `time_left`
and never attempt a start, so over any tick-only trace from a Running state
the start is attempted exactly once if some tick is at or past `end_time`,
and never otherwise. -/
theorem C6_expiry_once (app : App) (now : Int) (env : SoundEnv)
    (h : app.state = State.Running) :
    (tick now env app).1.time_left = app.end_time - now
  ∧ (app.end_time - now ≤ 0 →
       (tick now env app).1.state = State.Triggered
     ∧ (tick now env app).2 = [Effect.StartSound env.fileOpens])
  ∧ (∀ tapp : App, tapp.state = State.Triggered →
       tick now env tapp = ({ tapp with time_left := tapp.end_time - now }, []))
  ∧ (∀ ts : List (Int × SoundEnv),
       startAttempts (ticksRun app ts).2
         = if ts.any (fun p => decide (app.end_time ≤ p.1)) then 1 else 0) := by
  refine ⟨?_, ?_, ?_, ?_⟩
  · by_cases hx : app.end_time - now ≤ 0
    · exact (tick_running_expired now env app (Or.inl h) hx).2.1
    · simp [tick, h, hx]
  · intro hx
    exact ⟨(tick_running_expired now env app (Or.inl h) hx).1,
           (tick_running_expired now env app (Or.inl h) hx).2.2⟩
  · intro tapp ht
    exact tick_triggered now env tapp ht
  · intro ts
    exact ticksRun_running_count ts app h

/-- C6 witness: `sampleApp` (deadline 5000 ms) ticked at 1000, 6000 and
7000 ms triggers at the 6000 ms tick and attempts the start exactly once. -/
theorem C6_witness :
    (tick 6000 sampleEnv sampleApp).1.state = State.Triggered
  ∧ startAttempts
      (ticksRun sampleApp [(1000, sampleEnv), (6000, sampleEnv), (7000, sampleEnv)]).2 = 1 := by
  constructor
  · exact ((C6_expiry_once sampleApp 6000 sampleEnv rfl).2.1 (by decide)).1
  · have h := (C6_expiry_once sampleApp 6000 sampleEnv rfl).2.2.2
      [(1000, sampleEnv), (6000, sampleEnv), (7000, sampleEnv)]
    rw [h]
    decide

/-- C7: from Running, Space then Space (with any number of ticks in between
while Paused) restores phase Running, and `time_left` at resume equals
`time_left` at the pause exactly, because each Tick while Paused re-pins
`end_time = now + time_left` without changing phase or `time_left`. -/
theorem C7_pause_resume (app : App) (now1 now2 : Int) (ts : List (Int × SoundEnv))
    (h : app.state = State.Running) :
    (handle_key_events now2 spaceKey
        (ticksRun (handle_key_events now1 spaceKey app).1 ts).1).1.state = State.Running
  ∧ (handle_key_events now2 spaceKey
        (ticksRun (handle_key_events now1 spaceKey app).1 ts).1).1.time_left = app.time_left
  ∧ (∀ (papp : App) (n : Int) (env : SoundEnv), papp.state = State.Paused →
       tick n env papp = ({ papp with end_time := n + papp.time_left }, [])) := by
  have h1 : (handle_key_events now1 spaceKey app).1
      = { app with pre_pause_state := some State.Running, state := State.Paused } := by
    simp [handle_key_events, spaceKey, h]
  obtain ⟨ps, ptl, ppp⟩ :=
    ticksRun_paused ts (handle_key_events now1 spaceKey app).1 (by rw [h1])
  have hpp : (ticksRun (handle_key_events now1 spaceKey app).1 ts).1.pre_pause_state
      = some State.Running := by
    rw [ppp, h1]
  have key : ∀ mid : App, mid.state = State.Paused →
      mid.pre_pause_state = some State.Running →
      (handle_key_events now2 spaceKey mid).1.state = State.Running
    ∧ (handle_key_events now2 spaceKey mid).1.time_left = mid.time_left := by
    intro mid ps2 hpp2
    constructor <;> simp [handle_key_events, spaceKey, ps2, hpp2]
  refine ⟨?_, ?_, ?_⟩
  · exact (key _ ps hpp).1
  · rw [(key _ ps hpp).2, ptl, h1]
  · intro papp n env hp
    exact tick_paused n env papp hp

/-- C7 witness: `C7_pause_resume` on `sampleApp`: pause at 0 ms, one paused
tick at 100 ms, resume at 200 ms; the phase is Running again and
`time_left` is back to the 5000 ms it had when pausing. -/
theorem C7_witness :
    (handle_key_events 200 spaceKey
        (ticksRun (handle_key_events 0 spaceKey sampleApp).1 [(100, sampleEnv)]).1).1.state
      = State.Running
  ∧ (handle_key_events 200 spaceKey
        (ticksRun (handle_key_events 0 spaceKey sampleApp).1 [(100, sampleEnv)]).1).1.time_left
      = sampleApp.time_left := by
  have h := C7_pause_resume sampleApp 0 200 [(100, sampleEnv)] rfl
  exact ⟨h.1, h.2.1⟩

/-- C8: the Space key dispatches by phase: Running saves
`pre_pause_state = some Running` and pauses; Paused restores the saved
phase and clears `pre_pause_state`; Triggered performs the Restart action;
ConfirmRestart ignores it. -/
theorem C8_space_dispatch (app : App) (now : Int) :
    (app.state = State.Running →
       handle_key_events now spaceKey app
         = ({ app with pre_pause_state := some State.Running, state := State.Paused }, []))
  ∧ (∀ p : State, app.state = State.Paused → app.pre_pause_state = some p →
       handle_key_events now spaceKey app
         = ({ app with state := p, pre_pause_state := none }, []))
  ∧ (app.state = State.Triggered → handle_key_events now spaceKey app = restart now app)
  ∧ (app.state = State.Restart → handle_key_events now spaceKey app = (app, [])) := by
  refine ⟨?_, ?_, ?_, ?_⟩
  · intro h
    simp [handle_key_events, spaceKey, h]
  · intro p h hp
    simp [handle_key_events, spaceKey, h, hp]
  · intro h
    simp [handle_key_events, spaceKey, h]
  · intro h
    simp [handle_key_events, spaceKey, h]

/-- C8 witness: Space on the concrete running `sampleApp` saves
`pre_pause_state = some Running` and pauses. -/
theorem C8_witness :
    handle_key_events 0 spaceKey sampleApp
      = ({ sampleApp with pre_pause_state := some State.Running, state := State.Paused }, []) :=
  (C8_space_dispatch sampleApp 0).1 rfl

/-- C9: the rendered time string is the sign marker followed by the
zero-padded h:m:s split of `|time_left|`; the marker is "-" exactly when
the phase is Triggered (otherwise it is a space): Triggered with
`time_left` = -5 s renders "-00:00:05", Running with `time_left` = 5 s
renders " 00:00:05" (no leading "-"). -/
theorem C9_display_sign (app : App) :
    (time_sign app = "-" ↔ app.state = State.Triggered)
  ∧ time_string app
      = time_sign app ++ pad2 (renderHours app) ++ ":" ++ pad2 (renderMinutes app)
        ++ ":" ++ pad2 (renderSeconds app)
  ∧ (app.state = State.Triggered → app.time_left = Duration.seconds (-5) →
       time_string app = "-00:00:05")
  ∧ (app.state = State.Running → app.time_left = Duration.seconds 5 →
       time_string app = " 00:00:05") := by
  refine ⟨⟨?_, ?_⟩, rfl, ?_, ?_⟩
  · intro hs
    by_cases hns : app.state = State.Triggered
    · exact hns
    · simp only [time_sign, if_neg hns] at hs
      exact absurd hs (by decide)
  · intro hs
    simp [time_sign, hs]
  · intro h1 h2
    simp only [time_string, time_sign, renderHours, renderMinutes, renderSeconds, h1, h2]
    decide
  · intro h1 h2
    simp only [time_string, time_sign, renderHours, renderMinutes, renderSeconds, h1, h2]
    decide

/-- C9 witness: the triggered app five seconds into overtime renders
"-00:00:05", per `C9_display_sign`. -/
theorem C9_witness : time_string trigApp = "-00:00:05" :=
  (C9_display_sign trigApp).2.2.1 rfl rfl

/-- C10: in every state reachable from the initial one, a set
`pre_pause_state` holds Running (Space from Running is the only writer), so
resuming from Paused via Space always lands in Running. -/
theorem C10_pre_pause_running (time : Int) (sound : String) (label : Option String)
    (now0 : Int) (es : List Event) :
    (∀ p : State, (run (App.new time sound label now0) es).pre_pause_state = some p →
       p = State.Running)
  ∧ ((run (App.new time sound label now0) es).state = State.Paused →
       ∀ now : Int,
         (handle_key_events now spaceKey (run (App.new time sound label now0) es)).1.state
           = State.Running) := by
  have hinv := appInv_run es _ (appInv_new time sound label now0)
  constructor
  · intro p hp
    exact appInv_some_running _ hinv p hp
  · intro hs now
    have hpp : (run (App.new time sound label now0) es).pre_pause_state
        = some State.Running := by
      unfold AppInv at hinv
      rw [hinv, if_pos hs]
    simp [handle_key_events, spaceKey, hs, hpp]

/-- C10 witness: after pressing Space once from the initial state the app is
Paused; resuming via Space lands in Running, per `C10_pre_pause_running`. -/
theorem C10_witness :
    (handle_key_events 5 spaceKey (run (App.new 5000 "alarm.mp3" none 0) witnessEvents)).1.state
      = State.Running :=
  (C10_pre_pause_running 5000 "alarm.mp3" none 0 witnessEvents).2 (by decide) 5
